import Mathlib

/-!
# SyncPad shared-note access control and token lifecycle

A shallow embedding of the note handlers of `src/controllers/noteController.js`
(createNote, getNote, getSharedNote, updateNote, toggleSharing) together with
theorems about the access-control decisions and the share-token lifecycle.

Conventions of the embedding:
* the Mongo note collection is a `List Note`; `Note.findById` is `List.find?`
  on the `id` field and `Note.findOne {publicAccessToken}` is `List.find?` on
  the token field; `note.save()` replaces the document with the same `id`;
* absent string form fields are the empty string (JavaScript falsiness of
  `undefined` and `""` coincides at every use site of these handlers);
* checkbox fields carry their raw string value, compared to `"on"` as in the
  source;
* `Date.now()` and `Math.random().toString(36).substr(2, 9)` are modelled as
  environment streams `time : Nat → Nat` and `rand : Nat → String` indexed by
  the retry attempt; the unbounded `while (!isUnique)` retry loop is given
  explicit fuel, `none` standing for a run of the handler in which the loop
  has not yet terminated (no write ever happens in that case).
-/

namespace SyncPad

/-- The persisted note document, with the fields `createNote` writes. -/
structure Note where
  id : Nat
  title : String
  content : String
  date : String
  renamed : Bool
  originalTitle : String
  encrypted : Bool
  passcode : String
  shareable : Bool
  editPermissions : Bool
  disableEdit : Bool
  shareLink : String
  owner : String
  isPublic : Bool
  publicAccessToken : String
deriving Repr, DecidableEq

/-- JavaScript word character, the `\w` class: `[A-Za-z0-9_]`. -/
def isWordChar (c : Char) : Bool :=
  c.isAlpha || c.isDigit || c == '_'

/-- `String.prototype.trim`: strip leading and trailing whitespace. -/
def jsTrim (s : String) : String :=
  String.mk
    (((s.toList.dropWhile Char.isWhitespace).reverse.dropWhile
        Char.isWhitespace).reverse)

/-- Case-insensitive prefix test against a lowercase pattern. -/
def lcLeading : List Char → List Char → Bool
  | [], _ => true
  | _ :: _, [] => false
  | p :: ps, c :: cs => c.toLower == p && lcLeading ps cs

/-- The eleven characters of the pattern `javascript:`. -/
def jsProtoPat : List Char := "javascript:".toList

/-- Global case-insensitive removal of `javascript:`, scanning left to right
as `String.prototype.replace` with the `g` flag does.  The fuel argument is
only a structural-recursion device: every step consumes at least one
character, so fuel equal to the list length never runs out. -/
def stripJsProtocolAux : Nat → List Char → List Char
  | 0, _ => []
  | _, [] => []
  | fuel + 1, c :: cs =>
    if lcLeading jsProtoPat (c :: cs) then
      stripJsProtocolAux fuel (cs.drop 10)
    else
      c :: stripJsProtocolAux fuel cs

def stripJsProtocol (l : List Char) : List Char :=
  stripJsProtocolAux l.length l

/-- Length of a match of the regex `on\w+=` (case-insensitive) at the head of
the list, if any: `o`, `n`, a maximal nonempty run of word characters, `=`. -/
def onAttrMatchLen (l : List Char) : Option Nat :=
  match l with
  | c1 :: c2 :: rest =>
    if c1.toLower == 'o' && c2.toLower == 'n' then
      let run := rest.takeWhile isWordChar
      if run.length > 0 then
        match rest.drop run.length with
        | d :: _ => if d == '=' then some (2 + run.length + 1) else none
        | [] => none
      else none
    else none
  | _ => none

/-- Global case-insensitive removal of matches of `on\w+=`, with the same
structural fuel device (a match always consumes at least four characters). -/
def stripOnAttrAux : Nat → List Char → List Char
  | 0, _ => []
  | _, [] => []
  | fuel + 1, c :: cs =>
    match onAttrMatchLen (c :: cs) with
    | some n => stripOnAttrAux fuel (cs.drop (n - 1))
    | none => c :: stripOnAttrAux fuel cs

def stripOnAttr (l : List Char) : List Char :=
  stripOnAttrAux l.length l

/-- `sanitizeInput` from `noteController.js`: trim, strip `<` and `>`,
strip `javascript:` (case-insensitive), strip `on\w+=` event handlers. -/
def sanitizeInput (s : String) : String :=
  let t := jsTrim s
  let noAngle := t.toList.filter (fun c => !(c == '<' || c == '>'))
  String.mk (stripOnAttr (stripJsProtocol noAngle))

/-- `Note.findById` over the embedded collection. -/
def findById (store : List Note) (noteId : Nat) : Option Note :=
  store.find? (fun n => n.id == noteId)

/-- `Note.findOne {publicAccessToken: t}` over the embedded collection. -/
def findByToken (store : List Note) (t : String) : Option Note :=
  store.find? (fun n => n.publicAccessToken == t)

/-- `note.save()`: replace the document with the same id. -/
def saveNote (store : List Note) (n : Note) : List Note :=
  store.map (fun m => if m.id == n.id then n else m)

/-- `req.session && req.session.userId && note.owner.toString() === req.session.userId`. -/
def isOwnerOf (sessUserId : Option String) (note : Note) : Bool :=
  match sessUserId with
  | some uid => note.owner == uid
  | none => false

/-- `req.query.passcode || req.body.passcode` (absent fields are `""`). -/
def providedPasscodeOf (queryPasscode bodyPasscode : String) : String :=
  if queryPasscode != "" then queryPasscode else bodyPasscode

/-- The placeholder substituted for encrypted content in `getNote`. -/
def encryptedPlaceholder : String := "[Encrypted - Passcode Required]"

/-- Outcome of the `getNote` handler, carrying exactly the note object that
is handed to the template (so content masking is visible in the result). -/
inductive GetNoteResult where
  | notFound
  | accessDenied
  | passcodeRequired (payload : Note)
  | view (payload : Note) (isOwner : Bool) (editPermission : Bool)
deriving Repr, DecidableEq

/-- The `getNote` handler (`noteController.js` lines 185–236): owner check,
public check, encryption gate, edit-permission computation. -/
def getNote (store : List Note) (noteId : Nat) (sessUserId : Option String)
    (queryPasscode bodyPasscode : String) : GetNoteResult :=
  match findById store noteId with
  | none => .notFound
  | some note =>
    let isOwner := isOwnerOf sessUserId note
    if !isOwner && !note.isPublic then
      .accessDenied
    else
      let providedPasscode := providedPasscodeOf queryPasscode bodyPasscode
      if note.encrypted && !isOwner &&
          (providedPasscode == "" || providedPasscode != note.passcode) then
        .passcodeRequired { note with content := encryptedPlaceholder }
      else
        .view note isOwner (isOwner || (note.editPermissions && !note.disableEdit))

/-- The `getSharedNote` handler (`noteController.js` lines 239–275): look the
note up by token and public flag and hand it, unmodified, to the template.
`none` is the 404 branch. -/
def getSharedNote (store : List Note) (token : String) : Option Note :=
  store.find? (fun n => n.publicAccessToken == token && n.isPublic)

/-- One candidate of the token generator:
`` `share-${Date.now()}-${Math.random().toString(36).substr(2, 9)}` ``. -/
def mkToken (t : Nat) (r : String) : String :=
  "share-" ++ toString t ++ "-" ++ r

/-- The retry-until-unique token loop shared by `createNote`, `updateNote`
and `toggleSharing`: draw a candidate, look it up among all stored tokens,
retry on a hit.  `k` is the attempt index into the entropy streams, `fuel`
bounds the model of the unbounded `while` loop. -/
def issueTokenAux (store : List Note) (time : Nat → Nat) (rand : Nat → String) :
    Nat → Nat → Option String
  | _, 0 => none
  | k, fuel + 1 =>
    let cand := mkToken (time k) (rand k)
    match findByToken store cand with
    | some _ => issueTokenAux store time rand (k + 1) fuel
    | none => some cand

/-- Token issuance starting at the first entropy draw. -/
def issueToken (store : List Note) (time : Nat → Nat) (rand : Nat → String)
    (fuel : Nat) : Option String :=
  issueTokenAux store time rand 0 fuel

/-- The request body fields the create/update handlers read.  Absent fields
are the empty string; checkboxes carry `"on"` when ticked. -/
structure Body where
  title : String
  content : String
  encrypted : String
  passcode : String
  passcodeMobile : String
  passcodeDesktop : String
  shareable : String
  editPermissions : String
  disableEdit : String
deriving Repr, DecidableEq

/-- `passcode || passcodeMobile || passcodeDesktop || ''`. -/
def finalPasscodeOf (b : Body) : String :=
  if b.passcode != "" then b.passcode
  else if b.passcodeMobile != "" then b.passcodeMobile
  else if b.passcodeDesktop != "" then b.passcodeDesktop
  else ""

/-- Outcome of the `createNote` handler. -/
inductive CreateResult where
  | redirectLogin
  | renderError (msg : String)
  | redirectHome
deriving Repr, DecidableEq

def emptyNoteMsg : String :=
  "Note cannot be empty. Please add some content or a title."

def titleTooLongMsg : String := "Note title must be less than 100 characters"

def contentTooLongMsg : String :=
  "Note content must be less than 10,000 characters"

def passcodeRequiredMsg : String :=
  "Passcode is required for encrypted notes and must be at least 4 characters"

def titleRequiredMsg : String := "Note title is required"

/-- The `createNote` handler (`noteController.js` lines 81–182).  Besides the
rendered result it returns the note collection after the handler ran; `none`
models a run in which the token loop has not terminated (nothing is written
in that case).  `newId` stands for the id the store assigns to the new
document and `dateStr` for `new Date().toLocaleDateString('en-GB')`. -/
def createNote (store : List Note) (sessUserId : Option String) (b : Body)
    (time : Nat → Nat) (rand : Nat → String) (fuel : Nat)
    (newId : Nat) (dateStr : String) : Option (CreateResult × List Note) :=
  match sessUserId with
  | none => some (.redirectLogin, store)
  | some uid =>
    let finalPasscode := finalPasscodeOf b
    let hasContent := b.content != "" && (jsTrim b.content).length > 0
    let hasTitle := b.title != "" && (jsTrim b.title).length > 0
    if !hasContent && !hasTitle then
      some (.renderError emptyNoteMsg, store)
    else
      let noteTitle := if hasTitle then sanitizeInput b.title else "Untitled Note"
      if noteTitle.length > 100 then
        some (.renderError titleTooLongMsg, store)
      else if b.content != "" && b.content.length > 10000 then
        some (.renderError contentTooLongMsg, store)
      else if b.encrypted == "on" && (finalPasscode == "" || finalPasscode.length < 4) then
        some (.renderError passcodeRequiredMsg, store)
      else
        let tok? : Option String :=
          if b.shareable == "on" then issueToken store time rand fuel else some ""
        match tok? with
        | none => none
        | some publicAccessToken =>
          let newNote : Note :=
            { id := newId
              title := noteTitle
              content := sanitizeInput b.content
              date := dateStr
              renamed := false
              originalTitle := noteTitle
              encrypted := b.encrypted == "on"
              passcode := finalPasscode
              shareable := b.shareable == "on"
              editPermissions := b.editPermissions == "on"
              disableEdit := b.disableEdit == "on"
              shareLink := if b.shareable == "on" then publicAccessToken else ""
              owner := uid
              isPublic := b.shareable == "on"
              publicAccessToken := publicAccessToken }
          some (.redirectHome, store ++ [newNote])

/-- Outcome of the `updateNote` handler. -/
inductive UpdateResult where
  | redirectLogin
  | renderError (msg : String)
  | notFound
  | accessDenied
  | redirectNote
deriving Repr, DecidableEq

/-- The `updateNote` handler (`noteController.js` lines 314–422): validation,
ownership check, field mutation, and the token block that issues a token when
sharing is enabled without one and clears it when sharing is disabled. -/
def updateNote (store : List Note) (sessUserId : Option String) (noteId : Nat)
    (b : Body) (time : Nat → Nat) (rand : Nat → String) (fuel : Nat) :
    Option (UpdateResult × List Note) :=
  match sessUserId with
  | none => some (.redirectLogin, store)
  | some uid =>
    let finalPasscode := finalPasscodeOf b
    if b.title == "" || (jsTrim b.title).length == 0 then
      some (.renderError titleRequiredMsg, store)
    else if b.title.length > 100 then
      some (.renderError titleTooLongMsg, store)
    else if b.content != "" && b.content.length > 10000 then
      some (.renderError contentTooLongMsg, store)
    else
      match findById store noteId with
      | none => some (.notFound, store)
      | some note =>
        if note.owner != uid then
          some (.accessDenied, store)
        else
          let currentTitle := note.title
          let titleChanged := b.title != "" && b.title != currentTitle
          let note1 : Note :=
            { note with
              title := sanitizeInput b.title
              content := sanitizeInput b.content
              renamed := if titleChanged then true else note.renamed
              originalTitle :=
                if titleChanged && note.originalTitle == "" then currentTitle
                else note.originalTitle
              encrypted := b.encrypted == "on"
              passcode := finalPasscode
              shareable := b.shareable == "on"
              editPermissions := b.editPermissions == "on"
              disableEdit := b.disableEdit == "on" }
          if b.shareable == "on" && note1.publicAccessToken == "" then
            match issueToken store time rand fuel with
            | none => none
            | some t =>
              let note2 := { note1 with publicAccessToken := t, isPublic := true }
              some (.redirectNote, saveNote store note2)
          else if b.shareable != "on" then
            let note2 := { note1 with isPublic := false, publicAccessToken := "" }
            some (.redirectNote, saveNote store note2)
          else
            some (.redirectNote, saveNote store note1)

/-- Outcome of the `toggleSharing` handler; `json` carries the response body
`{ isPublic, shareLink }`. -/
inductive ToggleResult where
  | redirectLogin
  | notFound
  | accessDenied
  | json (isPublic : Bool) (shareLink : Option String)
deriving Repr, DecidableEq

/-- The `toggleSharing` handler (`noteController.js` lines 450–490): flip
`isPublic`, and issue a token only when the note is now public and has no
token yet.  Nothing is ever cleared here. -/
def toggleSharing (store : List Note) (sessUserId : Option String) (noteId : Nat)
    (time : Nat → Nat) (rand : Nat → String) (fuel : Nat) :
    Option (ToggleResult × List Note) :=
  match sessUserId with
  | none => some (.redirectLogin, store)
  | some uid =>
    match findById store noteId with
    | none => some (.notFound, store)
    | some note =>
      if note.owner != uid then
        some (.accessDenied, store)
      else
        let note1 := { note with isPublic := !note.isPublic }
        if note1.isPublic && note1.publicAccessToken == "" then
          match issueToken store time rand fuel with
          | none => none
          | some t =>
            let note2 := { note1 with publicAccessToken := t }
            some (.json note2.isPublic (some ("/shared/" ++ note2.publicAccessToken)),
                  saveNote store note2)
        else
          some (.json note1.isPublic
                  (if note1.isPublic then some ("/shared/" ++ note1.publicAccessToken)
                   else none),
                saveNote store note1)

/-- A note operation, for stating lifecycle invariants over sequences. -/
inductive Op where
  | createOp (sess : Option String) (b : Body) (time : Nat → Nat)
      (rand : Nat → String) (fuel : Nat) (newId : Nat) (dateStr : String)
  | updateOp (sess : Option String) (noteId : Nat) (b : Body) (time : Nat → Nat)
      (rand : Nat → String) (fuel : Nat)
  | toggleOp (sess : Option String) (noteId : Nat) (time : Nat → Nat)
      (rand : Nat → String) (fuel : Nat)

/-- Effect of one operation on the note collection. -/
def applyOp (op : Op) (store : List Note) : Option (List Note) :=
  match op with
  | .createOp sess b time rand fuel newId dateStr =>
    (createNote store sess b time rand fuel newId dateStr).map Prod.snd
  | .updateOp sess noteId b time rand fuel =>
    (updateNote store sess noteId b time rand fuel).map Prod.snd
  | .toggleOp sess noteId time rand fuel =>
    (toggleSharing store sess noteId time rand fuel).map Prod.snd

/-- Effect of a sequence of operations. -/
def runOps : List Op → List Note → Option (List Note)
  | [], store => some store
  | op :: ops, store =>
    match applyOp op store with
    | none => none
    | some store' => runOps ops store'

/-! ## Basic lemmas about tokens and the store -/

theorem mkToken_ne_empty (t : Nat) (r : String) : mkToken t r ≠ "" := by
  intro h
  have hlen : (mkToken t r).length = 0 := by rw [h]; rfl
  have h6 : ("share-" : String).length = 6 := rfl
  simp only [mkToken, String.length_append, h6] at hlen
  omega

theorem issueTokenAux_spec (store : List Note) (time : Nat → Nat)
    (rand : Nat → String) (k fuel : Nat) (t : String)
    (h : issueTokenAux store time rand k fuel = some t) :
    findByToken store t = none ∧ ∃ i, t = mkToken (time i) (rand i) := by
  induction fuel generalizing k with
  | zero => simp [issueTokenAux] at h
  | succ fuel ih =>
    rw [issueTokenAux] at h
    revert h
    cases hf : findByToken store (mkToken (time k) (rand k)) with
    | some n =>
      intro h
      exact ih (k + 1) h
    | none =>
      intro h
      simp only [Option.some.injEq] at h
      subst h
      exact ⟨hf, k, rfl⟩

theorem issueToken_spec (store : List Note) (time : Nat → Nat)
    (rand : Nat → String) (fuel : Nat) (t : String)
    (h : issueToken store time rand fuel = some t) :
    findByToken store t = none ∧ t ≠ "" := by
  obtain ⟨hf, i, hi⟩ := issueTokenAux_spec store time rand 0 fuel t h
  exact ⟨hf, hi ▸ mkToken_ne_empty (time i) (rand i)⟩

theorem findByToken_none (store : List Note) (t : String)
    (h : findByToken store t = none) :
    ∀ n ∈ store, n.publicAccessToken ≠ t := by
  intro n hn
  have := List.find?_eq_none.mp h n hn
  simpa using this

theorem mem_saveNote (store : List Note) (nw n : Note)
    (h : n ∈ saveNote store nw) : n = nw ∨ n ∈ store := by
  obtain ⟨m, hm, hmap⟩ := List.mem_map.mp h
  by_cases hid : (m.id == nw.id) = true
  · left
    rw [if_pos hid] at hmap
    exact hmap.symm
  · right
    rw [if_neg hid] at hmap
    exact hmap ▸ hm

theorem saveNote_mem_of_mem (store : List Note) (nw n : Note) (hn : n ∈ store)
    (hid : n.id ≠ nw.id) : n ∈ saveNote store nw := by
  have : (if n.id == nw.id then nw else n) ∈ saveNote store nw :=
    List.mem_map.mpr ⟨n, hn, rfl⟩
  rwa [if_neg (by simpa using hid)] at this

theorem saveNote_self_mem (store : List Note) (old nw : Note) (hmem : old ∈ store)
    (hid : old.id = nw.id) : nw ∈ saveNote store nw := by
  have : (if old.id == nw.id then nw else old) ∈ saveNote store nw :=
    List.mem_map.mpr ⟨old, hmem, rfl⟩
  rwa [if_pos (by simpa using hid)] at this

theorem findById_id_eq (store : List Note) (noteId : Nat) (note : Note)
    (h : findById store noteId = some note) : note.id = noteId := by
  have := List.find?_some h
  simpa using this

theorem findById_mem (store : List Note) (noteId : Nat) (note : Note)
    (h : findById store noteId = some note) : note ∈ store :=
  List.mem_of_find?_eq_some h

theorem findById_saveNote_self (store : List Note) (old nw : Note) (noteId : Nat)
    (hfind : findById store noteId = some old) (hid : nw.id = old.id) :
    findById (saveNote store nw) noteId = some nw := by
  have hoid : old.id = noteId := findById_id_eq store noteId old hfind
  induction store with
  | nil => simp [findById] at hfind
  | cons m ms ih =>
    by_cases hm : (m.id == noteId) = true
    · rw [findById, List.find?_cons, hm] at hfind
      injection hfind with hme
      subst hme
      have hmn : (m.id == nw.id) = true := by
        simp only [beq_iff_eq, hid]
      have hnwp : (nw.id == noteId) = true := by
        simp only [beq_iff_eq, hid, hoid]
      simp only [saveNote, List.map_cons, hmn, if_true, findById]
      rw [List.find?_cons, hnwp]
    · rw [findById, List.find?_cons, Bool.of_not_eq_true hm] at hfind
      have hmn : (m.id == nw.id) = false := by
        simp only [beq_eq_false_iff_ne, ne_eq]
        intro hmeq
        apply hm
        simp only [beq_iff_eq]
        rw [hmeq, hid, hoid]
      simp only [saveNote, List.map_cons, hmn, Bool.false_eq_true, if_false, findById]
      rw [List.find?_cons, Bool.of_not_eq_true hm]
      exact ih hfind

theorem findById_saveNote_ne (store : List Note) (nw : Note) (noteId : Nat)
    (hne : nw.id ≠ noteId) :
    findById (saveNote store nw) noteId = findById store noteId := by
  induction store with
  | nil => simp [findById, saveNote]
  | cons m ms ih =>
    by_cases hmn : (m.id == nw.id) = true
    · have hmid : m.id = nw.id := beq_iff_eq.mp hmn
      have hmp : (m.id == noteId) = false := by
        simp only [beq_eq_false_iff_ne, ne_eq, hmid]
        exact hne
      have hnwp : (nw.id == noteId) = false := by
        simpa using hne
      simp only [saveNote, List.map_cons, hmn, if_true, findById]
      rw [List.find?_cons, hnwp, List.find?_cons, hmp]
      exact ih
    · simp only [saveNote, List.map_cons, hmn, Bool.false_eq_true, if_false, findById]
      rw [List.find?_cons, List.find?_cons]
      cases hmp : (m.id == noteId) with
      | true => rfl
      | false => exact ih

/-- Ids of the documents are unchanged by a save. -/
theorem saveNote_map_id (store : List Note) (nw : Note) :
    (saveNote store nw).map Note.id = store.map Note.id := by
  induction store with
  | nil => rfl
  | cons m ms ih =>
    simp only [saveNote, List.map_cons] at ih ⊢
    by_cases hm : (m.id == nw.id) = true
    · rw [if_pos hm, ih]
      have : nw.id = m.id := (beq_iff_eq.mp hm).symm
      simp [this]
    · rw [if_neg hm, ih]

/-! ## The token/isPublic invariant -/

/-- The direction of the spec invariant that the code does maintain:
a currently shareable note has a non-empty token. -/
def weakTokenInv (n : Note) : Prop :=
  n.isPublic = true → n.publicAccessToken ≠ ""

instance (n : Note) : Decidable (weakTokenInv n) := by
  unfold weakTokenInv
  infer_instance

theorem createNote_shape (store : List Note) (sess : Option String) (b : Body)
    (time : Nat → Nat) (rand : Nat → String) (fuel newId : Nat) (dateStr : String)
    (r : CreateResult) (store' : List Note)
    (h : createNote store sess b time rand fuel newId dateStr = some (r, store')) :
    store' = store ∨ ∃ nw, weakTokenInv nw ∧ store' = store ++ [nw] := by
  simp only [createNote] at h
  split at h
  · exact Or.inl (by injection h with h'; exact (congrArg Prod.snd h').symm)
  · split at h
    · exact Or.inl (by injection h with h'; exact (congrArg Prod.snd h').symm)
    · split at h
      · split at h
        · exact Or.inl (by injection h with h'; exact (congrArg Prod.snd h').symm)
        · split at h
          · exact Or.inl (by injection h with h'; exact (congrArg Prod.snd h').symm)
          · split at h
            · exact Or.inl (by injection h with h'; exact (congrArg Prod.snd h').symm)
            · split at h
              · cases h
              · rename_i tok htok
                refine Or.inr ⟨_, ?_,
                  (by injection h with h'; exact (congrArg Prod.snd h').symm)⟩
                intro hpub
                have hsh : (b.shareable == "on") = true := hpub
                rw [if_pos hsh] at htok
                simpa using (issueToken_spec store time rand fuel tok htok).2
      · split at h
        · exact Or.inl (by injection h with h'; exact (congrArg Prod.snd h').symm)
        · split at h
          · exact Or.inl (by injection h with h'; exact (congrArg Prod.snd h').symm)
          · split at h
            · exact Or.inl (by injection h with h'; exact (congrArg Prod.snd h').symm)
            · split at h
              · cases h
              · rename_i tok htok
                refine Or.inr ⟨_, ?_,
                  (by injection h with h'; exact (congrArg Prod.snd h').symm)⟩
                intro hpub
                have hsh : (b.shareable == "on") = true := hpub
                rw [if_pos hsh] at htok
                simpa using (issueToken_spec store time rand fuel tok htok).2

theorem updateNote_shape (store : List Note) (sess : Option String) (noteId : Nat)
    (b : Body) (time : Nat → Nat) (rand : Nat → String) (fuel : Nat)
    (r : UpdateResult) (store' : List Note)
    (h : updateNote store sess noteId b time rand fuel = some (r, store')) :
    store' = store ∨ ∃ nw, weakTokenInv nw ∧ store' = saveNote store nw := by
  simp only [updateNote] at h
  split at h
  · simp only [Option.some.injEq, Prod.mk.injEq] at h
    exact Or.inl h.2.symm
  · split at h
    · simp only [Option.some.injEq, Prod.mk.injEq] at h
      exact Or.inl h.2.symm
    · split at h
      · simp only [Option.some.injEq, Prod.mk.injEq] at h
        exact Or.inl h.2.symm
      · split at h
        · simp only [Option.some.injEq, Prod.mk.injEq] at h
          exact Or.inl h.2.symm
        · split at h
          · simp only [Option.some.injEq, Prod.mk.injEq] at h
            exact Or.inl h.2.symm
          · split at h
            · simp only [Option.some.injEq, Prod.mk.injEq] at h
              exact Or.inl h.2.symm
            · split at h
              · split at h
                · cases h
                · rename_i t hiss
                  refine Or.inr ⟨_, ?_,
                    (by injection h with h'; exact (congrArg Prod.snd h').symm)⟩
                  intro _
                  simpa using (issueToken_spec store time rand fuel t hiss).2
              · split at h
                · refine Or.inr ⟨_, ?_,
                    (by injection h with h'; exact (congrArg Prod.snd h').symm)⟩
                  intro hpub
                  simp at hpub
                · rename_i hcond hsh
                  refine Or.inr ⟨_, ?_,
                    (by injection h with h'; exact (congrArg Prod.snd h').symm)⟩
                  intro hpub htokeq
                  have hshon : (b.shareable == "on") = true := by
                    have h1 : (b.shareable != "on") = false := by
                      cases h2 : (b.shareable != "on") with
                      | false => rfl
                      | true => exact absurd h2 hsh
                    simpa [bne] using h1
                  apply hcond
                  simp only [hshon, Bool.true_and, beq_iff_eq]
                  simpa using htokeq

theorem toggleSharing_shape (store : List Note) (sess : Option String) (noteId : Nat)
    (time : Nat → Nat) (rand : Nat → String) (fuel : Nat)
    (r : ToggleResult) (store' : List Note)
    (h : toggleSharing store sess noteId time rand fuel = some (r, store')) :
    store' = store ∨ ∃ nw, weakTokenInv nw ∧ store' = saveNote store nw := by
  simp only [toggleSharing] at h
  split at h
  · simp only [Option.some.injEq, Prod.mk.injEq] at h
    exact Or.inl h.2.symm
  · split at h
    · simp only [Option.some.injEq, Prod.mk.injEq] at h
      exact Or.inl h.2.symm
    · split at h
      · simp only [Option.some.injEq, Prod.mk.injEq] at h
        exact Or.inl h.2.symm
      · split at h
        · split at h
          · cases h
          · rename_i t hiss
            refine Or.inr ⟨_, ?_,
              (by injection h with h'; exact (congrArg Prod.snd h').symm)⟩
            intro _
            simpa using (issueToken_spec store time rand fuel t hiss).2
        · rename_i hcond
          refine Or.inr ⟨_, ?_,
            (by injection h with h'; exact (congrArg Prod.snd h').symm)⟩
          intro hpub htokeq
          apply hcond
          simp only [Bool.and_eq_true, beq_iff_eq]
          exact ⟨by simpa using hpub, by simpa using htokeq⟩

theorem applyOp_shape (op : Op) (store store' : List Note)
    (h : applyOp op store = some store') :
    store' = store ∨
    (∃ nw, weakTokenInv nw ∧ store' = store ++ [nw]) ∨
    (∃ nw, weakTokenInv nw ∧ store' = saveNote store nw) := by
  cases op with
  | createOp sess b time rand fuel newId dateStr =>
    simp only [applyOp, Option.map_eq_some'] at h
    obtain ⟨⟨r, st⟩, hcr, hsnd⟩ := h
    cases hsnd
    rcases createNote_shape store sess b time rand fuel newId dateStr r _ hcr with h1 | h2
    · exact Or.inl h1
    · exact Or.inr (Or.inl h2)
  | updateOp sess noteId b time rand fuel =>
    simp only [applyOp, Option.map_eq_some'] at h
    obtain ⟨⟨r, st⟩, hcr, hsnd⟩ := h
    cases hsnd
    rcases updateNote_shape store sess noteId b time rand fuel r _ hcr with h1 | h2
    · exact Or.inl h1
    · exact Or.inr (Or.inr h2)
  | toggleOp sess noteId time rand fuel =>
    simp only [applyOp, Option.map_eq_some'] at h
    obtain ⟨⟨r, st⟩, hcr, hsnd⟩ := h
    cases hsnd
    rcases toggleSharing_shape store sess noteId time rand fuel r _ hcr with h1 | h2
    · exact Or.inl h1
    · exact Or.inr (Or.inr h2)

theorem applyOp_preserves_weakTokenInv (op : Op) (store store' : List Note)
    (h : applyOp op store = some store')
    (hinv : ∀ n ∈ store, weakTokenInv n) :
    ∀ n ∈ store', weakTokenInv n := by
  rcases applyOp_shape op store store' h with rfl | ⟨nw, hnw, rfl⟩ | ⟨nw, hnw, rfl⟩
  · exact hinv
  · intro n hn
    rcases List.mem_append.mp hn with hn | hn
    · exact hinv n hn
    · simp only [List.mem_singleton] at hn
      exact hn ▸ hnw
  · intro n hn
    rcases mem_saveNote store nw n hn with rfl | hn
    · exact hnw
    · exact hinv n hn

theorem runOps_preserves_weakTokenInv (ops : List Op) (store store' : List Note)
    (hinv : ∀ n ∈ store, weakTokenInv n)
    (h : runOps ops store = some store') :
    ∀ n ∈ store', weakTokenInv n := by
  induction ops generalizing store with
  | nil =>
    simp only [runOps, Option.some.injEq] at h
    exact h ▸ hinv
  | cons op ops ih =>
    rw [runOps] at h
    revert h
    cases hap : applyOp op store with
    | none => intro h; cases h
    | some store1 =>
      intro h
      exact ih store1 (applyOp_preserves_weakTokenInv op store store1 hap hinv) h

/-! ## Access-evaluation lemmas shared by several claims -/

/-- A non-owner with view access (public, passcode satisfied when encrypted)
gets the `view` outcome with the edit flag `editPermissions && !disableEdit`. -/
theorem getNote_nonowner_view (store : List Note) (noteId : Nat) (note : Note)
    (sess : Option String) (q b : String)
    (hfind : findById store noteId = some note)
    (hown : isOwnerOf sess note = false)
    (hpub : note.isPublic = true)
    (henc : note.encrypted = true →
      providedPasscodeOf q b ≠ "" ∧ providedPasscodeOf q b = note.passcode) :
    getNote store noteId sess q b =
      .view note false (note.editPermissions && !note.disableEdit) := by
  by_cases hE : note.encrypted = true
  · obtain ⟨hne, heq⟩ := henc hE
    have h1 : (providedPasscodeOf q b == "") = false := by simpa using hne
    have h2 : (providedPasscodeOf q b != note.passcode) = false := by
      simp [bne, heq]
    simp [getNote, hfind, hown, hpub, hE, h1, h2]
  · have hE' : note.encrypted = false := by simpa using hE
    simp [getNote, hfind, hown, hpub, hE']

/-- A non-owner supplying no passcode or a wrong passcode for an encrypted
public note gets `passcodeRequired` with the content replaced by the
placeholder. -/
theorem getNote_nonowner_passcodeRequired (store : List Note) (noteId : Nat)
    (note : Note) (sess : Option String) (q b : String)
    (hfind : findById store noteId = some note)
    (hown : isOwnerOf sess note = false)
    (hpub : note.isPublic = true)
    (henc : note.encrypted = true)
    (hbad : providedPasscodeOf q b = "" ∨
      providedPasscodeOf q b ≠ note.passcode) :
    getNote store noteId sess q b =
      .passcodeRequired { note with content := encryptedPlaceholder } := by
  have hcond : (providedPasscodeOf q b == "" ||
      providedPasscodeOf q b != note.passcode) = true := by
    rcases hbad with hb | hb
    · simp [hb]
    · simp [bne, hb]
  simp [getNote, hfind, hown, hpub, henc, hcond]

/-! ## Concrete fixtures used by counterexamples and witnesses -/

/-- A plain unshared, unencrypted note owned by `u1`. -/
def baseNote : Note :=
  { id := 1, title := "T", content := "c", date := "d", renamed := false,
    originalTitle := "T", encrypted := false, passcode := "", shareable := false,
    editPermissions := false, disableEdit := false, shareLink := "", owner := "u1",
    isPublic := false, publicAccessToken := "" }

def zeroTime : Nat → Nat := fun _ => 0

def zeroRand : Nat → String := fun _ => "r0"

/-- A request body with every field absent. -/
def emptyBody : Body :=
  { title := "", content := "", encrypted := "", passcode := "", passcodeMobile := "",
    passcodeDesktop := "", shareable := "", editPermissions := "", disableEdit := "" }

/-- A valid plain update body: new title and content, no sharing options. -/
def plainBody : Body := { emptyBody with title := "T2", content := "c2" }

/-! ## Claims -/

/-- Claim C3: for every note and a requester equal to the note's owner, the
access evaluation returns the view-and-edit outcome with the real content,
for any values of `encrypted`, `isPublic`, `editPermissions`, `disableEdit`
and any supplied passcode (so the owner is never asked for a passcode). -/
theorem claim_C3_owner_always_full_access (store : List Note) (noteId : Nat)
    (note : Note) (q b : String)
    (hfind : findById store noteId = some note) :
    getNote store noteId (some note.owner) q b = .view note true true := by
  simp [getNote, hfind, isOwnerOf]

def c3Note : Note :=
  { baseNote with encrypted := true, passcode := "9999", disableEdit := true }

/-- Witness for C3 at a concrete encrypted, private, edit-disabled note. -/
theorem claim_C3_witness :
    getNote [c3Note] 1 (some c3Note.owner) "" "" = .view c3Note true true :=
  claim_C3_owner_always_full_access [c3Note] 1 c3Note "" "" (by decide)

/-- Claim C8: a non-owner with view access gets the edit outcome exactly when
`editPermissions && !disableEdit`; in particular `disableEdit` forces
view-only even when `editPermissions` is set. -/
theorem claim_C8_nonowner_edit_rule (store : List Note) (noteId : Nat)
    (note : Note) (sess : Option String) (q b : String)
    (hfind : findById store noteId = some note)
    (hown : isOwnerOf sess note = false)
    (hpub : note.isPublic = true)
    (henc : note.encrypted = true →
      providedPasscodeOf q b ≠ "" ∧ providedPasscodeOf q b = note.passcode) :
    getNote store noteId sess q b =
      .view note false (note.editPermissions && !note.disableEdit) :=
  getNote_nonowner_view store noteId note sess q b hfind hown hpub henc

def c8Note : Note :=
  { baseNote with isPublic := true, editPermissions := true, disableEdit := true }

/-- Witness for C8: `editPermissions = true` but `disableEdit = true` gives
the view-only outcome (edit flag `false`) for a non-owner. -/
theorem claim_C8_witness :
    getNote [c8Note] 1 (some "u2") "" "" = .view c8Note false false := by
  have h := claim_C8_nonowner_edit_rule [c8Note] 1 c8Note (some "u2") "" ""
    (by decide) (by decide) (by decide) (by decide)
  simpa [c8Note, baseNote] using h

/-- A public encrypted note whose stored passcode is empty. -/
def c7Note : Note :=
  { baseNote with encrypted := true, passcode := "", isPublic := true }

/-- Claim C7 counterexample: for an encrypted note whose stored passcode is
empty, an empty supplied passcode is NOT treated as a match — the evaluation
still returns `passcodeRequired`, contradicting the claim's "in which case it
matches". -/
theorem claim_C7_counterexample :
    c7Note.passcode = "" ∧
    getNote [c7Note] 1 none "" "" =
      .passcodeRequired { c7Note with content := encryptedPlaceholder } := by
  decide

/-- Claim C7 (amended): passcode comparison is exact string equality, and an
empty supplied passcode is never treated as a match, even when the stored
passcode is also empty: access is granted exactly when the supplied passcode
is non-empty and equal to the stored one. -/
theorem claim_C7_passcode_exact_equality (store : List Note) (noteId : Nat)
    (note : Note) (sess : Option String) (q b : String)
    (hfind : findById store noteId = some note)
    (hown : isOwnerOf sess note = false)
    (hpub : note.isPublic = true)
    (henc : note.encrypted = true) :
    getNote store noteId sess q b =
      (if providedPasscodeOf q b ≠ "" ∧ providedPasscodeOf q b = note.passcode
       then .view note false (note.editPermissions && !note.disableEdit)
       else .passcodeRequired { note with content := encryptedPlaceholder }) := by
  by_cases hc : providedPasscodeOf q b ≠ "" ∧ providedPasscodeOf q b = note.passcode
  · rw [if_pos hc]
    exact getNote_nonowner_view store noteId note sess q b hfind hown hpub (fun _ => hc)
  · rw [if_neg hc]
    rcases not_and_or.mp hc with hb | hb
    · exact getNote_nonowner_passcodeRequired store noteId note sess q b hfind hown hpub
        henc (Or.inl (not_not.mp hb))
    · exact getNote_nonowner_passcodeRequired store noteId note sess q b hfind hown hpub
        henc (Or.inr hb)

def c7wNote : Note :=
  { baseNote with id := 2, encrypted := true, passcode := "1234", isPublic := true }

/-- Witness for the amended C7: a wrong passcode `"0000"` against stored
`"1234"` yields `passcodeRequired` with the placeholder content. -/
theorem claim_C7_witness :
    getNote [c7wNote] 2 none "0000" "" =
      .passcodeRequired { c7wNote with content := encryptedPlaceholder } := by
  have h := claim_C7_passcode_exact_equality [c7wNote] 2 c7wNote none "0000" ""
    (by decide) (by decide) (by decide) (by decide)
  rw [if_neg (by decide)] at h
  exact h

/-- A public, encrypted, token-bearing note with secret content. -/
def c2Note : Note :=
  { baseNote with
    encrypted := true, passcode := "1234", content := "TopSecret",
    isPublic := true, publicAccessToken := "share-9-zz" }

/-- Claim C2 (code bug): the shared-token route has no passcode gate at all.
For a public encrypted note, `getNote` masks the content behind the passcode
gate, but `getSharedNote` hands the very same note — real content included —
to the response without ever asking for a passcode. -/
theorem claim_C2_shared_route_leaks_encrypted_content :
    getSharedNote [c2Note] "share-9-zz" = some c2Note ∧
    c2Note.content = "TopSecret" ∧
    getNote [c2Note] 1 none "" "" =
      .passcodeRequired { c2Note with content := encryptedPlaceholder } := by
  decide

/-- An update request asking for encryption with the 2-character passcode. -/
def c5Body : Body :=
  { emptyBody with title := "T2", content := "c", encrypted := "on", passcode := "ab" }

/-- Claim C5 (code bug): `createNote` rejects an encrypted note with a
passcode shorter than 4 characters, but `updateNote` performs no such
validation and persists the note with `encrypted = true` and the 2-character
passcode `"ab"`. -/
theorem claim_C5_update_persists_short_passcode :
    createNote [baseNote] (some "u1") c5Body zeroTime zeroRand 1 2 "d"
      = some (.renderError passcodeRequiredMsg, [baseNote]) ∧
    updateNote [baseNote] (some "u1") 1 c5Body zeroTime zeroRand 1
      = some (.redirectNote,
          [{ baseNote with
              title := "T2", renamed := true, encrypted := true,
              passcode := "ab" }]) ∧
    ("ab" : String).length < 4 := by
  decide

/-- A public note granting edit permission with edits not disabled. -/
def c6Note : Note := { baseNote with isPublic := true, editPermissions := true }

/-- Claim C6 counterexample: a non-owner (`u2`) with view access to a public
note with `editPermissions = true` and `disableEdit = false` is shown the
edit outcome by the evaluation, yet their update is rejected with the
access-denied outcome and nothing is persisted. -/
theorem claim_C6_counterexample :
    getNote [c6Note] 1 (some "u2") "" "" = .view c6Note false true ∧
    updateNote [c6Note] (some "u2") 1 plainBody zeroTime zeroRand 1
      = some (.accessDenied, [c6Note]) := by
  decide

/-- Claim C6 (amended): non-owners with view access are reported as having
edit permission by the access evaluation, but an update submitted by any
requester who does not own the note never succeeds: `updateNote` leaves the
store unchanged and never returns the success redirect. -/
theorem claim_C6_nonowner_update_never_succeeds (store : List Note)
    (noteId : Nat) (uid : String) (b : Body) (time : Nat → Nat)
    (rand : Nat → String) (fuel : Nat)
    (hown : ((findById store noteId).all fun note => note.owner != uid) = true) :
    ∃ r, updateNote store (some uid) noteId b time rand fuel = some (r, store) ∧
      r ≠ UpdateResult.redirectNote := by
  simp only [updateNote]
  split
  · exact ⟨_, rfl, by simp⟩
  · split
    · exact ⟨_, rfl, by simp⟩
    · split
      · exact ⟨_, rfl, by simp⟩
      · rcases hf : findById store noteId with _ | note
        · exact ⟨.notFound, rfl, by simp⟩
        · rw [hf] at hown
          simp only [Option.all_some] at hown
          refine ⟨.accessDenied, ?_, by simp⟩
          simp only [hown, if_true]

def c6wNote : Note :=
  { baseNote with id := 3, owner := "u3", isPublic := true, editPermissions := true }

/-- Witness for the amended C6 at a concrete non-owner update. -/
theorem claim_C6_witness :
    ∃ r, updateNote [c6wNote] (some "u9") 3 plainBody zeroTime zeroRand 1
        = some (r, [c6wNote]) ∧ r ≠ UpdateResult.redirectNote :=
  claim_C6_nonowner_update_never_succeeds [c6wNote] 3 "u9" plainBody zeroTime
    zeroRand 1 (by decide)

/-- A string of length zero is the empty string. -/
theorem eq_empty_of_length_eq_zero (s : String) (h : s.length = 0) : s = "" := by
  cases s with
  | mk data =>
    cases data with
    | nil => rfl
    | cons c cs => simp [String.length] at h

/-- Claim C10: a creation request whose title is empty or whitespace-only is
rejected (with the empty-note error and an unchanged store) when the content
is also empty or whitespace-only; and any note actually persisted by such a
request carries the "Untitled Note" default title and non-whitespace content. -/
theorem claim_C10_empty_note_rejected (store : List Note) (uid : String)
    (b : Body) (time : Nat → Nat) (rand : Nat → String) (fuel newId : Nat)
    (dateStr : String) (htitle : jsTrim b.title = "") :
    (jsTrim b.content = "" →
      createNote store (some uid) b time rand fuel newId dateStr
        = some (.renderError emptyNoteMsg, store)) ∧
    (∀ r store' n, createNote store (some uid) b time rand fuel newId dateStr
        = some (r, store') → n ∈ store' → n ∉ store →
        jsTrim b.content ≠ "" ∧ n.title = "Untitled Note") := by
  have hTitle : (b.title != "" && decide ((jsTrim b.title).length > 0)) = false := by
    rw [htitle]
    simp
  constructor
  · intro hcon
    have hContent : (b.content != "" && decide ((jsTrim b.content).length > 0)) = false := by
      rw [hcon]
      simp
    simp [createNote, hTitle, hContent, emptyNoteMsg]
  · intro r store' n hcr hmem hnmem
    by_cases hcon : jsTrim b.content = ""
    · exfalso
      have hContent : (b.content != "" && decide ((jsTrim b.content).length > 0)) = false := by
        rw [hcon]
        simp
      rw [show createNote store (some uid) b time rand fuel newId dateStr
          = some (.renderError emptyNoteMsg, store) by
            simp [createNote, hTitle, hContent, emptyNoteMsg]] at hcr
      injection hcr with h'
      have hses : store = store' := congrArg Prod.snd h'
      exact hnmem (by rw [hses]; exact hmem)
    · refine ⟨hcon, ?_⟩
      have hbc : b.content ≠ "" := by
        intro he
        exact hcon (by rw [he]; rfl)
      have hContent : (b.content != "" && decide ((jsTrim b.content).length > 0)) = true := by
        have h1 : (b.content != "") = true := by simpa using hbc
        have h2 : (jsTrim b.content).length ≠ 0 := fun h0 =>
          hcon (eq_empty_of_length_eq_zero _ h0)
        simp [h1, Nat.pos_of_ne_zero h2]
      simp only [createNote, hContent, hTitle, Bool.not_true, Bool.not_false,
        Bool.false_and, Bool.and_false, Bool.false_eq_true, if_false] at hcr
      split at hcr
      · injection hcr with h'
        have hses : store = store' := congrArg Prod.snd h'
        exact absurd (by rw [hses]; exact hmem) hnmem
      · split at hcr
        · injection hcr with h'
          have hses : store = store' := congrArg Prod.snd h'
          exact absurd (by rw [hses]; exact hmem) hnmem
        · split at hcr
          · injection hcr with h'
            have hses : store = store' := congrArg Prod.snd h'
            exact absurd (by rw [hses]; exact hmem) hnmem
          · split at hcr
            · cases hcr
            · rename_i tok htok
              injection hcr with h'
              have hses : store ++ [_] = store' := congrArg Prod.snd h'
              rw [← hses] at hmem
              rcases List.mem_append.mp hmem with hn | hn
              · exact absurd hn hnmem
              · simp only [List.mem_singleton] at hn
                rw [hn]

def c10Body : Body := { emptyBody with title := "   ", content := "hello" }

def c10Note : Note :=
  { id := 7, title := "Untitled Note", content := "hello", date := "d",
    renamed := false, originalTitle := "Untitled Note", encrypted := false,
    passcode := "", shareable := false, editPermissions := false,
    disableEdit := false, shareLink := "", owner := "u1", isPublic := false,
    publicAccessToken := "" }

/-- Witness for C10: a whitespace title with content `"hello"` persists a
note titled "Untitled Note". -/
theorem claim_C10_witness :
    jsTrim c10Body.content ≠ "" ∧ c10Note.title = "Untitled Note" :=
  (claim_C10_empty_note_rejected [] "u1" c10Body zeroTime zeroRand 1 7 "d"
      (by decide)).2
    CreateResult.redirectHome [c10Note] c10Note (by decide) (by decide) (by decide)

/-! ## Toggle and update lifecycle specs (used by C1 and C4) -/

/-- Enabling sharing via `toggleSharing` on an unshared note without a token
issues a fresh token and saves the note as public with that token. -/
theorem toggleSharing_enable_spec (store : List Note) (uid : String)
    (noteId : Nat) (time : Nat → Nat) (rand : Nat → String) (fuel : Nat)
    (note : Note) (r : ToggleResult) (store' : List Note)
    (hfind : findById store noteId = some note)
    (hown : note.owner = uid) (hpub : note.isPublic = false)
    (htok : note.publicAccessToken = "")
    (h : toggleSharing store (some uid) noteId time rand fuel = some (r, store')) :
    ∃ t, issueToken store time rand fuel = some t ∧
      r = .json true (some ("/shared/" ++ t)) ∧
      store' = saveNote store { note with isPublic := true, publicAccessToken := t } := by
  have hownf : (note.owner != uid) = false := by simp [hown]
  simp only [toggleSharing, hfind, hownf, Bool.false_eq_true, if_false, hpub,
    htok, Bool.not_false, beq_self_eq_true, Bool.and_self, if_true] at h
  revert h
  cases hiss : issueToken store time rand fuel with
  | none => intro h; cases h
  | some t =>
    intro h
    injection h with h'
    exact ⟨t, rfl, (congrArg Prod.fst h').symm, (congrArg Prod.snd h').symm⟩

/-- Toggling a currently public note disables sharing but leaves the token
untouched: the saved note only has `isPublic` flipped to `false`. -/
theorem toggleSharing_disable_spec (store : List Note) (uid : String)
    (noteId : Nat) (time : Nat → Nat) (rand : Nat → String) (fuel : Nat)
    (note : Note) (r : ToggleResult) (store' : List Note)
    (hfind : findById store noteId = some note)
    (hown : note.owner = uid) (hpub : note.isPublic = true)
    (h : toggleSharing store (some uid) noteId time rand fuel = some (r, store')) :
    r = .json false none ∧ store' = saveNote store { note with isPublic := false } := by
  have hownf : (note.owner != uid) = false := by simp [hown]
  simp only [toggleSharing, hfind, hownf, Bool.false_eq_true, if_false, hpub,
    Bool.not_true, Bool.false_and, Bool.and_false] at h
  injection h with h'
  exact ⟨(congrArg Prod.fst h').symm, (congrArg Prod.snd h').symm⟩

/-- Toggling a non-public note that still carries a token re-enables sharing
with the SAME token: no fresh token is issued. -/
theorem toggleSharing_reenable_spec (store : List Note) (uid : String)
    (noteId : Nat) (time : Nat → Nat) (rand : Nat → String) (fuel : Nat)
    (note : Note) (r : ToggleResult) (store' : List Note)
    (hfind : findById store noteId = some note)
    (hown : note.owner = uid) (hpub : note.isPublic = false)
    (htok : note.publicAccessToken ≠ "")
    (h : toggleSharing store (some uid) noteId time rand fuel = some (r, store')) :
    r = .json true (some ("/shared/" ++ note.publicAccessToken)) ∧
    store' = saveNote store { note with isPublic := true } := by
  have hownf : (note.owner != uid) = false := by simp [hown]
  have htokf : (note.publicAccessToken == "") = false := by simpa using htok
  simp only [toggleSharing, hfind, hownf, Bool.false_eq_true, if_false, hpub,
    Bool.not_false, htokf, Bool.and_false, Bool.true_and, if_true] at h
  injection h with h'
  exact ⟨(congrArg Prod.fst h').symm, (congrArg Prod.snd h').symm⟩

/-- A successful `updateNote` with sharing unchecked clears the token and
sets `isPublic = false` on the stored note. -/
theorem updateNote_disable_spec (store : List Note) (uid : String)
    (noteId : Nat) (b : Body) (time : Nat → Nat) (rand : Nat → String)
    (fuel : Nat) (note : Note) (store' : List Note)
    (hfind : findById store noteId = some note)
    (hown : note.owner = uid) (hsh : b.shareable ≠ "on")
    (h : updateNote store (some uid) noteId b time rand fuel
      = some (.redirectNote, store')) :
    ∃ n', findById store' noteId = some n' ∧ n'.isPublic = false ∧
      n'.publicAccessToken = "" := by
  have hownf : (note.owner != uid) = false := by simp [hown]
  have hsh1 : (b.shareable == "on") = false := by simpa using hsh
  have hsh2 : (b.shareable != "on") = true := by simp [bne, hsh1]
  simp only [updateNote] at h
  split at h
  · cases (Prod.mk.injEq .. ▸ Option.some.inj h).1
  · split at h
    · cases (Prod.mk.injEq .. ▸ Option.some.inj h).1
    · split at h
      · cases (Prod.mk.injEq .. ▸ Option.some.inj h).1
      · rw [hfind] at h
        simp only [hownf, Bool.false_eq_true, if_false, hsh1, Bool.false_and,
          hsh2, if_true] at h
        injection h with h'
        have hst : saveNote store _ = store' := congrArg Prod.snd h'
        rw [← hst]
        exact ⟨_, findById_saveNote_self store note _ noteId hfind rfl, rfl, rfl⟩

/-! ## Claims C1 and C4 -/

/-- Enable then disable sharing on note 1 through `toggleSharing`. -/
def c1Ops : List Op :=
  [Op.toggleOp (some "u1") 1 zeroTime zeroRand 1,
   Op.toggleOp (some "u1") 1 zeroTime zeroRand 1]

def c1FinalNote : Note :=
  { baseNote with isPublic := false, publicAccessToken := "share-0-r0" }

/-- Claim C1 counterexample: enabling then disabling sharing through
`toggleSharing` leaves a note with `isPublic = false` and a non-empty
`publicAccessToken`, violating the claimed biconditional invariant. -/
theorem claim_C1_counterexample :
    runOps c1Ops [baseNote] = some [c1FinalNote] ∧
    ¬ (c1FinalNote.publicAccessToken ≠ "" ↔ c1FinalNote.isPublic = true) := by
  decide

/-- Claim C1 (amended): across every sequence of create/update/toggle
operations, every note with `isPublic = true` has a non-empty token (the
forward direction of the claimed invariant), and disabling sharing through
`updateNote` does clear the token; but disabling through `toggleSharing`
keeps the token, so the backward direction fails. -/
theorem claim_C1_token_invariant :
    (∀ (ops : List Op) (store store' : List Note),
        (∀ n ∈ store, weakTokenInv n) → runOps ops store = some store' →
        ∀ n ∈ store', weakTokenInv n) ∧
    (∀ (store : List Note) (uid : String) (noteId : Nat) (b : Body)
        (time : Nat → Nat) (rand : Nat → String) (fuel : Nat) (note : Note)
        (store' : List Note),
        findById store noteId = some note → note.owner = uid →
        b.shareable ≠ "on" →
        updateNote store (some uid) noteId b time rand fuel
          = some (.redirectNote, store') →
        ∃ n', findById store' noteId = some n' ∧ n'.isPublic = false ∧
          n'.publicAccessToken = "") :=
  ⟨fun ops store store' hinv h => runOps_preserves_weakTokenInv ops store store' hinv h,
   fun store uid noteId b time rand fuel note store' hfind hown hsh h =>
    updateNote_disable_spec store uid noteId b time rand fuel note store'
      hfind hown hsh h⟩

def c1wNote : Note :=
  { baseNote with
    id := 4, owner := "u4", isPublic := true,
    publicAccessToken := "share-1-x" }

/-- Witness for the amended C1: the invariant after the counterexample run,
and a concrete disable-via-update that clears the token. -/
theorem claim_C1_witness :
    (∀ n ∈ [c1FinalNote], weakTokenInv n) ∧
    (∃ n', findById
        [{ c1wNote with
            title := "T2", content := "c2", renamed := true, originalTitle := "T",
            isPublic := false, publicAccessToken := "" }] 4 = some n' ∧
      n'.isPublic = false ∧ n'.publicAccessToken = "") := by
  constructor
  · exact claim_C1_token_invariant.1 c1Ops [baseNote] [c1FinalNote]
      (by decide) (by decide)
  · exact claim_C1_token_invariant.2 [c1wNote] "u4" 4 plainBody zeroTime
      zeroRand 1 c1wNote _ (by decide) (by decide) (by decide) (by decide)

/-- `baseNote` with sharing enabled and the first issued token. -/
def c4OnNote : Note :=
  { baseNote with isPublic := true, publicAccessToken := "share-0-r0" }

def c4OffNote : Note :=
  { baseNote with isPublic := false, publicAccessToken := "share-0-r0" }

/-- Claim C4 counterexample: enable → disable → enable through
`toggleSharing` on a concrete note: after the disable the token is still
present, and the second enable hands back the SAME share link, so the second
token equals the first. -/
theorem claim_C4_counterexample :
    toggleSharing [baseNote] (some "u1") 1 zeroTime zeroRand 1
      = some (.json true (some "/shared/share-0-r0"), [c4OnNote]) ∧
    toggleSharing [c4OnNote] (some "u1") 1 (fun _ => 77) (fun _ => "fresh") 9
      = some (.json false none, [c4OffNote]) ∧
    c4OffNote.publicAccessToken ≠ "" ∧
    toggleSharing [c4OffNote] (some "u1") 1 (fun _ => 88) (fun _ => "fresher") 9
      = some (.json true (some "/shared/share-0-r0"), [c4OnNote]) := by
  decide

/-- Claim C4 (amended): for any note starting unshared and tokenless, the
toggle round trip enable → disable → enable issues one token `t` at the
first enable and then never lets go of it: after the disable the note is
not public but still carries `t`, and the second enable re-issues the very
same `t` (second token = first token, old token resurrected). -/
theorem claim_C4_toggle_roundtrip (store : List Note) (noteId : Nat)
    (note : Note) (uid : String)
    (t1 : Nat → Nat) (r1 : Nat → String) (f1 : Nat)
    (t2 : Nat → Nat) (r2 : Nat → String) (f2 : Nat)
    (t3 : Nat → Nat) (r3 : Nat → String) (f3 : Nat)
    (res1 res2 res3 : ToggleResult) (store1 store2 store3 : List Note)
    (hfind : findById store noteId = some note)
    (hown : note.owner = uid) (hpub : note.isPublic = false)
    (htok : note.publicAccessToken = "")
    (h1 : toggleSharing store (some uid) noteId t1 r1 f1 = some (res1, store1))
    (h2 : toggleSharing store1 (some uid) noteId t2 r2 f2 = some (res2, store2))
    (h3 : toggleSharing store2 (some uid) noteId t3 r3 f3 = some (res3, store3)) :
    ∃ t, t ≠ "" ∧
      findById store1 noteId = some { note with isPublic := true, publicAccessToken := t } ∧
      findById store2 noteId = some { note with isPublic := false, publicAccessToken := t } ∧
      res3 = .json true (some ("/shared/" ++ t)) ∧
      findById store3 noteId = some { note with isPublic := true, publicAccessToken := t } := by
  obtain ⟨t, hiss, hres1, hst1⟩ :=
    toggleSharing_enable_spec store uid noteId t1 r1 f1 note res1 store1
      hfind hown hpub htok h1
  have htne : t ≠ "" := (issueToken_spec store t1 r1 f1 t hiss).2
  have hf1 : findById store1 noteId
      = some { note with isPublic := true, publicAccessToken := t } := by
    rw [hst1]
    exact findById_saveNote_self store note _ noteId hfind rfl
  obtain ⟨hres2, hst2⟩ :=
    toggleSharing_disable_spec store1 uid noteId t2 r2 f2 _ res2 store2
      hf1 hown rfl h2
  have hf2 : findById store2 noteId
      = some { note with isPublic := false, publicAccessToken := t } := by
    rw [hst2]
    exact findById_saveNote_self store1 _ _ noteId hf1 rfl
  obtain ⟨hres3, hst3⟩ :=
    toggleSharing_reenable_spec store2 uid noteId t3 r3 f3 _ res3 store3
      hf2 hown rfl htne h3
  have hf3 : findById store3 noteId
      = some { note with isPublic := true, publicAccessToken := t } := by
    rw [hst3]
    exact findById_saveNote_self store2 _ _ noteId hf2 rfl
  exact ⟨t, htne, hf1, hf2, hres3, hf3⟩

def c4wNote : Note := { baseNote with id := 5, owner := "u5" }

def c4wOnNote : Note :=
  { c4wNote with isPublic := true, publicAccessToken := "share-0-r0" }

def c4wOffNote : Note :=
  { c4wNote with isPublic := false, publicAccessToken := "share-0-r0" }

/-- Witness for the amended C4 on a concrete three-toggle run. -/
theorem claim_C4_witness :
    ∃ t, t ≠ "" ∧
      findById [c4wOnNote] 5 = some { c4wNote with isPublic := true, publicAccessToken := t } ∧
      findById [c4wOffNote] 5 = some { c4wNote with isPublic := false, publicAccessToken := t } ∧
      ToggleResult.json true (some "/shared/share-0-r0")
        = .json true (some ("/shared/" ++ t)) ∧
      findById [c4wOnNote] 5 = some { c4wNote with isPublic := true, publicAccessToken := t } :=
  claim_C4_toggle_roundtrip [c4wNote] 5 c4wNote "u5"
    zeroTime zeroRand 1 (fun _ => 77) (fun _ => "fresh") 9
    (fun _ => 88) (fun _ => "fresher") 9
    (.json true (some "/shared/share-0-r0")) (.json false none)
    (.json true (some "/shared/share-0-r0"))
    [c4wOnNote] [c4wOffNote] [c4wOnNote]
    (by decide) (by decide) (by decide) (by decide)
    (by decide) (by decide) (by decide)

/-! ## Claim C9: sequential token issuance across distinct notes -/

/-- One "enable sharing" call: the owner session, the target note id, and
the entropy/fuel environment of the call. -/
structure ToggleCall where
  sess : String
  noteId : Nat
  time : Nat → Nat
  rand : Nat → String
  fuel : Nat

/-- Run a sequence of `toggleSharing` calls, collecting after each call the
token then stored on the toggled note. -/
def runEnables : List ToggleCall → List Note → Option (List Note × List String)
  | [], store => some (store, [])
  | c :: cs, store =>
    match toggleSharing store (some c.sess) c.noteId c.time c.rand c.fuel with
    | none => none
    | some (_, store1) =>
      match findById store1 c.noteId with
      | none => none
      | some n =>
        match runEnables cs store1 with
        | none => none
        | some (fin, ts) => some (fin, n.publicAccessToken :: ts)

/-- The call targets an existing note owned by the caller that is not yet
shared and carries no token. -/
def callOk (store : List Note) (c : ToggleCall) : Bool :=
  match findById store c.noteId with
  | some note =>
    note.owner == c.sess && !note.isPublic && note.publicAccessToken == ""
  | none => false

/-- All stored documents have pairwise-distinct ids. -/
def idsDistinct (store : List Note) : Prop :=
  (store.map Note.id).Pairwise (· ≠ ·)

/-- The calls target pairwise-distinct notes. -/
def callIdsDistinct (cs : List ToggleCall) : Prop :=
  (cs.map ToggleCall.noteId).Pairwise (· ≠ ·)

theorem idsDistinct_saveNote (store : List Note) (nw : Note)
    (h : idsDistinct store) : idsDistinct (saveNote store nw) := by
  unfold idsDistinct at h ⊢
  rw [saveNote_map_id]
  exact h

theorem eq_of_mem_idsDistinct : ∀ (store : List Note), idsDistinct store →
    ∀ a b : Note, a ∈ store → b ∈ store → a.id = b.id → a = b
  | [], _, a, _, ha, _, _ => absurd ha (List.not_mem_nil a)
  | m :: ms, hids, a, b, ha, hb, hab => by
    unfold idsDistinct at hids
    rw [List.map_cons, List.pairwise_cons] at hids
    obtain ⟨hm, hms⟩ := hids
    rcases List.mem_cons.mp ha with rfl | ha'
    · rcases List.mem_cons.mp hb with rfl | hb'
      · rfl
      · exact absurd hab (hm b.id (List.mem_map_of_mem Note.id hb'))
    · rcases List.mem_cons.mp hb with rfl | hb'
      · exact absurd hab.symm (hm a.id (List.mem_map_of_mem Note.id ha'))
      · exact eq_of_mem_idsDistinct ms hms a b ha' hb' hab

/-- Soundness of the issuance sequence: when every call targets a distinct,
fresh, owned note, the collected tokens are pairwise distinct, non-empty,
and new with respect to every token in the starting store. -/
theorem runEnables_spec : ∀ (cs : List ToggleCall) (store fin : List Note)
    (ts : List String), idsDistinct store → callIdsDistinct cs →
    (∀ c ∈ cs, callOk store c = true) →
    runEnables cs store = some (fin, ts) →
    ts.Pairwise (· ≠ ·) ∧ (∀ t ∈ ts, t ≠ "") ∧
      (∀ t ∈ ts, ∀ n ∈ store, n.publicAccessToken ≠ t)
  | [], store, fin, ts, _, _, _, hrun => by
    simp only [runEnables, Option.some.injEq, Prod.mk.injEq] at hrun
    rw [← hrun.2]
    exact ⟨List.Pairwise.nil, by simp, by simp⟩
  | c :: cs, store, fin, ts, hids, hcs, hok, hrun => by
    simp only [runEnables] at hrun
    revert hrun
    cases htog : toggleSharing store (some c.sess) c.noteId c.time c.rand c.fuel with
    | none => intro hrun; cases hrun
    | some p =>
      obtain ⟨r1, store1⟩ := p
      intro hrun
      dsimp only at hrun
      have hokc := hok c (List.mem_cons_self c cs)
      revert hokc
      unfold callOk
      cases hfind0 : findById store c.noteId with
      | none => intro hokc; cases hokc
      | some note =>
        intro hokc
        rw [Bool.and_eq_true, Bool.and_eq_true] at hokc
        obtain ⟨⟨hown1, hpub1⟩, htok1⟩ := hokc
        have hown : note.owner = c.sess := by simpa using hown1
        have hpub : note.isPublic = false := by simpa using hpub1
        have htok : note.publicAccessToken = "" := by simpa using htok1
        obtain ⟨t, hiss, hres1, hst1⟩ :=
          toggleSharing_enable_spec store c.sess c.noteId c.time c.rand c.fuel
            note r1 store1 hfind0 hown hpub htok htog
        have htne : t ≠ "" := (issueToken_spec store c.time c.rand c.fuel t hiss).2
        have hfresh : ∀ n ∈ store, n.publicAccessToken ≠ t :=
          findByToken_none store t
            (issueToken_spec store c.time c.rand c.fuel t hiss).1
        have hf1 : findById store1 c.noteId
            = some { note with isPublic := true, publicAccessToken := t } := by
          rw [hst1]
          exact findById_saveNote_self store note _ c.noteId hfind0 rfl
        rw [hf1] at hrun
        revert hrun
        cases hrec : runEnables cs store1 with
        | none => intro hrun; cases hrun
        | some q =>
          obtain ⟨fin1, ts1⟩ := q
          intro hrun
          injection hrun with hrun'
          have hts : ({ note with
              isPublic := true, publicAccessToken := t } : Note).publicAccessToken
              :: ts1 = ts :=
            congrArg Prod.snd hrun'
          rw [← hts]
          unfold callIdsDistinct at hcs
          rw [List.map_cons, List.pairwise_cons] at hcs
          obtain ⟨hchead, hctail⟩ := hcs
          have hnoteid : note.id = c.noteId := findById_id_eq store c.noteId note hfind0
          have hids1 : idsDistinct store1 := by
            rw [hst1]
            exact idsDistinct_saveNote store _ hids
          have hok1 : ∀ c' ∈ cs, callOk store1 c' = true := by
            intro c' hc'
            have hne : ({ note with
                isPublic := true, publicAccessToken := t } : Note).id ≠ c'.noteId := by
              show note.id ≠ c'.noteId
              rw [hnoteid]
              exact hchead c'.noteId (List.mem_map_of_mem ToggleCall.noteId hc')
            have hsame : findById store1 c'.noteId = findById store c'.noteId := by
              rw [hst1]
              exact findById_saveNote_ne store _ c'.noteId hne
            unfold callOk
            rw [hsame]
            have hprev := hok c' (List.mem_cons_of_mem c hc')
            unfold callOk at hprev
            exact hprev
          obtain ⟨ihPair, ihNe, ihFresh⟩ :=
            runEnables_spec cs store1 fin1 ts1 hids1 hctail hok1 hrec
          have hmem1 : ({ note with
              isPublic := true, publicAccessToken := t } : Note) ∈ store1 := by
            rw [hst1]
            exact saveNote_self_mem store note _
              (findById_mem store c.noteId note hfind0) rfl
          refine ⟨?_, ?_, ?_⟩
          · rw [List.pairwise_cons]
            refine ⟨?_, ihPair⟩
            intro t' ht'
            exact ihFresh t' ht' _ hmem1
          · intro t'' ht''
            rcases List.mem_cons.mp ht'' with rfl | ht1
            · exact htne
            · exact ihNe t'' ht1
          · intro t'' ht'' n hn
            rcases List.mem_cons.mp ht'' with rfl | ht1
            · exact hfresh n hn
            · by_cases hnid : n.id = note.id
              · have heqn : n = note :=
                  eq_of_mem_idsDistinct store hids n note hn
                    (findById_mem store c.noteId note hfind0) hnid
                rw [heqn, htok]
                exact (ihNe t'' ht1).symm
              · have hnmem1 : n ∈ store1 := by
                  rw [hst1]
                  exact saveNote_mem_of_mem store _ n hn hnid
                exact ihFresh t'' ht1 n hnmem1

/-- Claim C9: issuing N share tokens in sequence — one per enable-sharing
call across distinct fresh notes, each issuance retrying candidates until
one is absent from the currently-issued tokens — yields N pairwise-distinct
token values. -/
theorem claim_C9_sequential_tokens_distinct (cs : List ToggleCall)
    (store fin : List Note) (ts : List String)
    (hids : idsDistinct store) (hcs : callIdsDistinct cs)
    (hok : ∀ c ∈ cs, callOk store c = true)
    (hrun : runEnables cs store = some (fin, ts)) :
    ts.Pairwise (· ≠ ·) :=
  (runEnables_spec cs store fin ts hids hcs hok hrun).1

def c9Store : List Note :=
  [baseNote, { baseNote with id := 2, owner := "u2" },
   { baseNote with id := 3, owner := "u3" }]

def c9Calls : List ToggleCall :=
  [⟨"u1", 1, zeroTime, fun _ => "a1", 1⟩, ⟨"u2", 2, zeroTime, fun _ => "a2", 1⟩,
   ⟨"u3", 3, zeroTime, fun _ => "a3", 1⟩]

def c9FinalStore : List Note :=
  [{ baseNote with isPublic := true, publicAccessToken := "share-0-a1" },
   { baseNote with
     id := 2, owner := "u2", isPublic := true,
     publicAccessToken := "share-0-a2" },
   { baseNote with
     id := 3, owner := "u3", isPublic := true,
     publicAccessToken := "share-0-a3" }]

/-- Witness for C9: three enable-sharing calls on three distinct notes
issue three pairwise-distinct tokens. -/
theorem claim_C9_witness :
    (["share-0-a1", "share-0-a2", "share-0-a3"] : List String).Pairwise (· ≠ ·) :=
  claim_C9_sequential_tokens_distinct c9Calls c9Store c9FinalStore
    ["share-0-a1", "share-0-a2", "share-0-a3"]
    (by unfold idsDistinct; decide) (by unfold callIdsDistinct; decide)
    (by decide) (by decide)

end SyncPad
